import Mathlib

/-!
Shallow embedding of the offpass vault encryption/persistence core.

Source files embedded:
  * crypto service (`generateKeyFromPassword`, `encrypt`, `decrypt`,
    `generatePassword`) — PBKDF2 key derivation is modelled symbolically as the
    pair (password, salt): it is deterministic in that pair and two distinct
    pairs give distinct keys.  AES-256-GCM authenticated encryption is modelled
    symbolically: a ciphertext records the key and iv it was produced under and
    the serialized plaintext; `decrypt` succeeds exactly when key and iv match
    (the GCM tag check), and returns `none` on any failure — a single failure
    value, so no cause is ever distinguishable to the caller.  JSON
    serialization and the base64 coding of byte strings are injective
    round-tripping codings and are modelled as the identity.
  * vault service (`createVault`, `openVault`, `updateVault`,
    `changeMasterPassword`, `addCredential`, `updateCredential`,
    `deleteCredential`, `updateVaultSettings`).
  * storage service (`saveVault` = IndexedDB `put`, i.e. upsert keyed by `id`,
    `getVault`, `saveSettings` on the singleton slot, `importData`).

Effects are made explicit: random byte generation (`crypto.getRandomValues`,
`crypto.randomUUID`) is a counter-based fresh-value stream threaded through a
`Sys` state (salts, ivs and uuids are the `Nat`s drawn from it), `Date.now()`
reads the `now` field, and the IndexedDB vault store is a list of records
upserted by id.  Thrown JS `Error`s become `Except VaultError` results.
-/

namespace Offpass

/-- A symbolic PBKDF2-derived AES key: deterministic in (password, salt). -/
structure DerivedKey where
  password : String
  salt : Nat
deriving DecidableEq, Repr

/-- One optional field of a credential record. -/
abbrev OptStr := Option String

/-- A stored login record (types.ts `Credential`). -/
structure Credential where
  id : Nat
  title : String
  username : String
  password : String
  url : OptStr := none
  notes : OptStr := none
  category : OptStr := none
  tags : Option (List String) := none
  lastModified : Nat
  createdAt : Nat
deriving DecidableEq, Repr

/-- The optional per-vault settings object (types.ts `VaultData["settings"]`). -/
structure VaultSettings where
  autoLockTimeout : Option Nat := none
  categories : Option (List String) := none
  defaultCategory : OptStr := none
deriving DecidableEq, Repr

/-- The vault plaintext (types.ts `VaultData`). -/
structure VaultData where
  credentials : List Credential
  settings : Option VaultSettings := none
deriving DecidableEq, Repr

/-- Symbolic AES-256-GCM ciphertext: remembers the key and iv it was produced
under and the (serialized) plaintext; decryption checks them. -/
structure Ciphertext where
  key : DerivedKey
  iv : Nat
  plain : VaultData
deriving DecidableEq, Repr

/-- Public vault metadata (types.ts `Vault`). -/
structure Vault where
  id : Nat
  name : String
  createdAt : Nat
  lastAccessed : Nat
  lastModified : Nat
deriving DecidableEq, Repr

/-- The only persisted form (types.ts `EncryptedVault`).  `encryptedData`,
`iv` and `salt` are stored base64-encoded in the source; base64 is a bijective
coding and is modelled as the identity. -/
structure EncryptedVault where
  id : Nat
  name : String
  encryptedData : Ciphertext
  iv : Nat
  salt : Nat
  createdAt : Nat
  lastAccessed : Nat
  lastModified : Nat
deriving DecidableEq, Repr

/-- App-level settings stored in the singleton slot (types.ts `AppSettings`). -/
structure AppSettings where
  darkMode : Bool
  autoLockTimeout : Nat
  defaultVaultId : Option Nat := none
deriving DecidableEq, Repr

/-- The errors the vault service throws (`new Error(...)` messages in
vaultService.ts). -/
inductive VaultError where
  | vaultNotFound
  | incorrectPasswordOrCorrupt
  | failedToUpdateVault
  | credentialNotFound
deriving DecidableEq, Repr

/-- The explicit effect state: the IndexedDB vault store, the fresh-value
counter standing for the cryptographically random stream, and the clock. -/
structure Sys where
  store : List EncryptedVault
  rng : Nat
  now : Nat
deriving DecidableEq, Repr

/-! ## Crypto service (crypto.ts) -/

/-- crypto.ts `generateKeyFromPassword(password, salt?)`: if the salt is
absent, 16 fresh random bytes are drawn for it (one fresh draw from the
stream); the PBKDF2-derived key is deterministic in (password, salt).
Returns ((key, salt), next rng counter). -/
def generateKeyFromPassword (password : String) (saltOpt : Option Nat) (rng : Nat) :
    (DerivedKey × Nat) × Nat :=
  match saltOpt with
  | some salt => ((⟨password, salt⟩, salt), rng)
  | none => ((⟨password, rng⟩, rng), rng + 1)

/-- crypto.ts `encrypt(key, data)`: draws a fresh random 12-byte iv and
produces the AES-GCM ciphertext of the serialized data.  Returns
((ciphertext, iv), next rng counter). -/
def encrypt (key : DerivedKey) (data : VaultData) (rng : Nat) :
    (Ciphertext × Nat) × Nat :=
  ((⟨key, rng, data⟩, rng), rng + 1)

/-- crypto.ts `decrypt(key, encryptedData, iv)`: AES-GCM decryption; the tag
check fails — one indistinguishable failure, `none` — unless the ciphertext
was produced under exactly this key and iv. -/
def decrypt (key : DerivedKey) (encryptedData : Ciphertext) (iv : Nat) :
    Option VaultData :=
  if encryptedData.key = key ∧ encryptedData.iv = iv then some encryptedData.plain
  else none

/-- The four character classes of crypto.ts `generatePassword`. -/
def uppercaseChars : String := "ABCDEFGHIJKLMNOPQRSTUVWXYZ"

def lowercaseChars : String := "abcdefghijklmnopqrstuvwxyz"

def numberChars : String := "0123456789"

def symbolChars : String := "!@#$%^&*()_-+=<>?"

/-- The charset-selection flags of `generatePassword` (types.ts
`PasswordGenerationOptions` minus the length). -/
structure PasswordOptions where
  uppercase : Bool
  lowercase : Bool
  numbers : Bool
  symbols : Bool
deriving DecidableEq, Repr

/-- The error `generatePassword` throws when no character class is chosen. -/
inductive CryptoError where
  | validationError
deriving DecidableEq, Repr

/-- The concatenation `chars` that crypto.ts `generatePassword` builds from
the selected classes. -/
def passwordCharset (options : PasswordOptions) : String :=
  (if options.uppercase then uppercaseChars else "") ++
  (if options.lowercase then lowercaseChars else "") ++
  (if options.numbers then numberChars else "") ++
  (if options.symbols then symbolChars else "")

/-- crypto.ts `generatePassword(length, options)`: concatenate the selected
classes; throw when empty; draw `length` random bytes (`randomArray`, made an
explicit argument); pick character `i` as `chars[randomArray[i] % chars.length]`. -/
def generatePassword (length : Nat) (options : PasswordOptions)
    (randomArray : List Nat) : Except CryptoError String :=
  let chars := passwordCharset options
  if chars.length = 0 then Except.error CryptoError.validationError
  else
    Except.ok (String.mk ((List.range length).map
      (fun i => chars.data.getD (randomArray.getD i 0 % chars.data.length) 'A')))

/-! ## Storage service (storage.ts) -/

/-- storage.ts `saveVault`: IndexedDB `put` on the vaults store with keyPath
`id` — the store is keyed by `id` (so never holds two records with one id):
`put` replaces the record with the same id, or appends the new one. -/
def saveVault (v : EncryptedVault) : List EncryptedVault → List EncryptedVault
  | [] => [v]
  | r :: rs => if r.id == v.id then v :: rs else r :: saveVault v rs

/-- storage.ts `getVault`: IndexedDB `get` by id, `null` when absent. -/
def getVault (id : Nat) (store : List EncryptedVault) : Option EncryptedVault :=
  store.find? (fun r => r.id == id)

/-! ## Vault service (vaultService.ts) -/

/-- The default plaintext a fresh vault is created with (vaultService.ts
`createVault`). -/
def defaultVaultData : VaultData :=
  { credentials := [],
    settings := some
      { autoLockTimeout := some 15,
        categories := some ["Login", "Financial", "Personal", "Work"],
        defaultCategory := some "Login" } }

/-- vaultService.ts `createVault(name, masterPassword)`: fresh uuid, default
data, fresh salt + key, encrypt, persist; returns the new id. -/
def createVault (name : String) (masterPassword : String) (sys : Sys) :
    Nat × Sys :=
  let id := sys.rng
  let kr := generateKeyFromPassword masterPassword none (sys.rng + 1)
  let er := encrypt kr.1.1 defaultVaultData kr.2
  let encryptedVault : EncryptedVault :=
    { id := id, name := name, encryptedData := er.1.1, iv := er.1.2,
      salt := kr.1.2, createdAt := sys.now, lastAccessed := sys.now,
      lastModified := sys.now }
  (id, { sys with store := saveVault encryptedVault sys.store, rng := er.2 })

/-- vaultService.ts `openVault(id, masterPassword)`: load the record (`Vault
not found` when absent); derive the key from the stored salt and the given
password; decrypt; on any failure inside the try block throw the one generic
`Incorrect master password or corrupted data` error; on success persist the
updated `lastAccessed` through `saveVault`. -/
def openVault (id : Nat) (masterPassword : String) (sys : Sys) :
    Except VaultError (Vault × VaultData) × Sys :=
  match getVault id sys.store with
  | none => (Except.error VaultError.vaultNotFound, sys)
  | some encryptedVault =>
    let kr := generateKeyFromPassword masterPassword (some encryptedVault.salt) sys.rng
    match decrypt kr.1.1 encryptedVault.encryptedData encryptedVault.iv with
    | none => (Except.error VaultError.incorrectPasswordOrCorrupt, sys)
    | some vaultData =>
      let vault : Vault :=
        { id := encryptedVault.id, name := encryptedVault.name,
          createdAt := encryptedVault.createdAt, lastAccessed := sys.now,
          lastModified := encryptedVault.lastModified }
      (Except.ok (vault, vaultData),
       { sys with
          store := saveVault { encryptedVault with lastAccessed := sys.now } sys.store })

/-- JS `a || b` on an optional string: the old value stands in for both an
absent and an empty new name (vaultService.ts `newName || encryptedVault.name`). -/
def jsStringOr (s : Option String) (d : String) : String :=
  match s with
  | some v => if v = "" then d else v
  | none => d

/-- vaultService.ts `updateVault(id, masterPassword, data, newName?)`: load
the record (`Vault not found` when absent); derive the key from the stored
salt and the given password; encrypt the new data under it; bump
lastModified/lastAccessed; persist.  No step inside the try block verifies
the password. -/
def updateVault (id : Nat) (masterPassword : String) (data : VaultData)
    (newName : Option String) (sys : Sys) : Except VaultError Vault × Sys :=
  match getVault id sys.store with
  | none => (Except.error VaultError.vaultNotFound, sys)
  | some encryptedVault =>
    let kr := generateKeyFromPassword masterPassword (some encryptedVault.salt) sys.rng
    let er := encrypt kr.1.1 data kr.2
    let updatedVault : EncryptedVault :=
      { encryptedVault with
          name := jsStringOr newName encryptedVault.name,
          encryptedData := er.1.1, iv := er.1.2,
          lastModified := sys.now, lastAccessed := sys.now }
    (Except.ok
        { id := updatedVault.id, name := updatedVault.name,
          createdAt := updatedVault.createdAt,
          lastAccessed := updatedVault.lastAccessed,
          lastModified := updatedVault.lastModified },
     { sys with store := saveVault updatedVault sys.store, rng := er.2 })

/-- vaultService.ts `changeMasterPassword(id, currentPassword, newPassword)`:
open with the current password (propagating its failure); derive a brand-new
salt and key from the new password; re-encrypt the decrypted data; reload the
record and persist new salt + ciphertext + iv as one record. -/
def changeMasterPassword (id : Nat) (currentPassword newPassword : String)
    (sys : Sys) : Except VaultError Unit × Sys :=
  match openVault id currentPassword sys with
  | (Except.error e, sys₁) => (Except.error e, sys₁)
  | (Except.ok res, sys₁) =>
    let kr := generateKeyFromPassword newPassword none sys₁.rng
    let er := encrypt kr.1.1 res.2 kr.2
    match getVault id sys₁.store with
    | none => (Except.error VaultError.vaultNotFound, { sys₁ with rng := er.2 })
    | some existingVault =>
      let updatedVault : EncryptedVault :=
        { existingVault with
            encryptedData := er.1.1, iv := er.1.2, salt := kr.1.2,
            lastModified := sys₁.now, lastAccessed := sys₁.now }
      (Except.ok (),
       { sys₁ with rng := er.2, store := saveVault updatedVault sys₁.store })

/-- The caller-supplied part of a credential (vaultService.ts `addCredential`
takes `Omit<Credential, "id" | "createdAt" | "lastModified">`). -/
structure CredentialInput where
  title : String
  username : String
  password : String
  url : OptStr := none
  notes : OptStr := none
  category : OptStr := none
  tags : Option (List String) := none
deriving DecidableEq, Repr

/-- vaultService.ts `addCredential(vaultId, masterPassword, credential)`:
open the vault; build a new credential with a fresh uuid and
createdAt = lastModified = now; append it; persist via `updateVault`. -/
def addCredential (vaultId : Nat) (masterPassword : String)
    (credential : CredentialInput) (sys : Sys) :
    Except VaultError Credential × Sys :=
  match openVault vaultId masterPassword sys with
  | (Except.error e, sys₁) => (Except.error e, sys₁)
  | (Except.ok res, sys₁) =>
    let newCredential : Credential :=
      { id := sys₁.rng, title := credential.title,
        username := credential.username, password := credential.password,
        url := credential.url, notes := credential.notes,
        category := credential.category, tags := credential.tags,
        lastModified := sys₁.now, createdAt := sys₁.now }
    let sys₂ := { sys₁ with rng := sys₁.rng + 1 }
    let data' := { res.2 with credentials := res.2.credentials ++ [newCredential] }
    match updateVault vaultId masterPassword data' none sys₂ with
    | (Except.error e, sys₃) => (Except.error e, sys₃)
    | (Except.ok _, sys₃) => (Except.ok newCredential, sys₃)

/-- The caller-supplied field overrides of `updateCredential`
(`Partial<Omit<Credential, "id" | "createdAt">>`; a `lastModified` override
would be overwritten by `Date.now()` in the same object literal, so it is not
modelled). -/
structure CredentialUpdates where
  title : Option String := none
  username : Option String := none
  password : Option String := none
  url : Option OptStr := none
  notes : Option OptStr := none
  category : Option OptStr := none
  tags : Option (Option (List String)) := none
deriving DecidableEq, Repr

/-- The object spread `{ ...credential, ...updates, lastModified: Date.now() }`. -/
def applyUpdates (c : Credential) (u : CredentialUpdates) (now : Nat) :
    Credential :=
  { c with
      title := u.title.getD c.title,
      username := u.username.getD c.username,
      password := u.password.getD c.password,
      url := u.url.getD c.url,
      notes := u.notes.getD c.notes,
      category := u.category.getD c.category,
      tags := u.tags.getD c.tags,
      lastModified := now }

/-- vaultService.ts `updateCredential(vaultId, masterPassword, credentialId,
updates)`: open the vault; find the credential index (`Credential not found`
when absent); replace it with the overridden copy; persist via `updateVault`. -/
def updateCredential (vaultId : Nat) (masterPassword : String)
    (credentialId : Nat) (updates : CredentialUpdates) (sys : Sys) :
    Except VaultError Credential × Sys :=
  match openVault vaultId masterPassword sys with
  | (Except.error e, sys₁) => (Except.error e, sys₁)
  | (Except.ok res, sys₁) =>
    let index := res.2.credentials.findIdx (fun c => c.id == credentialId)
    if h : index < res.2.credentials.length then
      let updatedCredential :=
        applyUpdates (res.2.credentials.get ⟨index, h⟩) updates sys₁.now
      let data' := { res.2 with
        credentials := res.2.credentials.set index updatedCredential }
      match updateVault vaultId masterPassword data' none sys₁ with
      | (Except.error e, sys₂) => (Except.error e, sys₂)
      | (Except.ok _, sys₂) => (Except.ok updatedCredential, sys₂)
    else
      (Except.error VaultError.credentialNotFound, sys₁)

/-- vaultService.ts `deleteCredential(vaultId, masterPassword, credentialId)`:
open the vault; filter the credential out (a silent no-op when the id is
absent); persist via `updateVault`. -/
def deleteCredential (vaultId : Nat) (masterPassword : String)
    (credentialId : Nat) (sys : Sys) : Except VaultError Unit × Sys :=
  match openVault vaultId masterPassword sys with
  | (Except.error e, sys₁) => (Except.error e, sys₁)
  | (Except.ok res, sys₁) =>
    let data' := { res.2 with
      credentials := res.2.credentials.filter (fun c => c.id != credentialId) }
    match updateVault vaultId masterPassword data' none sys₁ with
    | (Except.error e, sys₂) => (Except.error e, sys₂)
    | (Except.ok _, sys₂) => (Except.ok (), sys₂)

/-- The object spread `{ ...data.settings, ...settings }` merging field by
field: a field present in the update wins, otherwise the old one stands. -/
def mergeVaultSettings (old upd : Option VaultSettings) : VaultSettings :=
  let o := old.getD {}
  let n := upd.getD {}
  { autoLockTimeout := n.autoLockTimeout.orElse (fun _ => o.autoLockTimeout),
    categories := n.categories.orElse (fun _ => o.categories),
    defaultCategory := n.defaultCategory.orElse (fun _ => o.defaultCategory) }

/-- vaultService.ts `updateVaultSettings(vaultId, masterPassword, settings)`:
open the vault; merge the partial settings into the existing ones; persist
via `updateVault`. -/
def updateVaultSettings (vaultId : Nat) (masterPassword : String)
    (settings : Option VaultSettings) (sys : Sys) :
    Except VaultError Unit × Sys :=
  match openVault vaultId masterPassword sys with
  | (Except.error e, sys₁) => (Except.error e, sys₁)
  | (Except.ok res, sys₁) =>
    let data' := { res.2 with
      settings := some (mergeVaultSettings res.2.settings settings) }
    match updateVault vaultId masterPassword data' none sys₁ with
    | (Except.error e, sys₂) => (Except.error e, sys₂)
    | (Except.ok _, sys₂) => (Except.ok (), sys₂)

/-! ## Store lemmas -/

theorem getVault_id_eq {i : Nat} {s : List EncryptedVault} {r : EncryptedVault}
    (h : getVault i s = some r) : r.id = i := by
  have := List.find?_some h
  simpa using this

theorem getVault_saveVault_same (v : EncryptedVault) (s : List EncryptedVault) :
    getVault v.id (saveVault v s) = some v := by
  induction s with
  | nil => simp [saveVault, getVault]
  | cons r rs ih =>
    by_cases h : r.id = v.id
    · simp [saveVault, getVault, h]
    · simp only [saveVault, getVault] at *
      simp [h, List.find?, ih]

theorem getVault_saveVault_of_id {u : EncryptedVault} {i : Nat}
    (h : u.id = i) (s : List EncryptedVault) :
    getVault i (saveVault u s) = some u := by
  rw [← h]
  exact getVault_saveVault_same u s

theorem getVault_saveVault_ne {i : Nat} (v : EncryptedVault)
    (s : List EncryptedVault) (h : i ≠ v.id) :
    getVault i (saveVault v s) = getVault i s := by
  have hvi : (v.id == i) = false := by simp [Ne.symm h]
  induction s with
  | nil => simp [saveVault, getVault, List.find?_cons, hvi]
  | cons r rs ih =>
    by_cases hr : r.id = v.id
    · have hri : (r.id == i) = false := by simp [hr, Ne.symm h]
      simp [saveVault, getVault, hr, List.find?_cons, hvi, hri]
    · simp only [saveVault, getVault, beq_iff_eq, hr, if_false]
      rw [List.find?_cons, List.find?_cons]
      cases hri : (r.id == i)
      · simpa [getVault] using ih
      · rfl

theorem saveVault_saveVault {a b : EncryptedVault} (h : a.id = b.id)
    (s : List EncryptedVault) :
    saveVault b (saveVault a s) = saveVault b s := by
  induction s with
  | nil => simp [saveVault, h]
  | cons r rs ih =>
    by_cases hr : r.id = a.id
    · simp [saveVault, hr, h, hr.trans h]
    · have hrb : ¬ r.id = b.id := fun hc => hr (hc.trans h.symm)
      simp [saveVault, hr, hrb, ih]

/-! ## Operation characterizations -/

theorem openVault_notFound {id : Nat} {p : String} {sys : Sys}
    (h : getVault id sys.store = none) :
    openVault id p sys = (Except.error VaultError.vaultNotFound, sys) := by
  unfold openVault
  rw [h]

theorem openVault_decryptFail {id : Nat} {p : String} {sys : Sys}
    {ev : EncryptedVault} (hev : getVault id sys.store = some ev)
    (hdec : decrypt ⟨p, ev.salt⟩ ev.encryptedData ev.iv = none) :
    openVault id p sys = (Except.error VaultError.incorrectPasswordOrCorrupt, sys) := by
  unfold openVault
  rw [hev]
  simp only [generateKeyFromPassword, hdec]

theorem openVault_ok {id : Nat} {p : String} {sys : Sys}
    {ev : EncryptedVault} {v : VaultData}
    (hev : getVault id sys.store = some ev)
    (hdec : decrypt ⟨p, ev.salt⟩ ev.encryptedData ev.iv = some v) :
    openVault id p sys =
      (Except.ok (⟨ev.id, ev.name, ev.createdAt, sys.now, ev.lastModified⟩, v),
       { sys with store := saveVault { ev with lastAccessed := sys.now } sys.store }) := by
  unfold openVault
  rw [hev]
  simp only [generateKeyFromPassword, hdec]

/-- The record `updateVault` persists on success. -/
def updatedRecord (ev : EncryptedVault) (p : String) (d : VaultData)
    (nn : Option String) (rng now : Nat) : EncryptedVault :=
  { ev with
      name := jsStringOr nn ev.name,
      encryptedData := ⟨⟨p, ev.salt⟩, rng, d⟩, iv := rng,
      lastModified := now, lastAccessed := now }

theorem updateVault_notFound {id : Nat} {p : String} {d : VaultData}
    {nn : Option String} {sys : Sys} (h : getVault id sys.store = none) :
    updateVault id p d nn sys = (Except.error VaultError.vaultNotFound, sys) := by
  unfold updateVault
  rw [h]

theorem updateVault_ok {id : Nat} {p : String} {d : VaultData}
    {nn : Option String} {sys : Sys} {ev : EncryptedVault}
    (hev : getVault id sys.store = some ev) :
    updateVault id p d nn sys =
      (Except.ok ⟨ev.id, jsStringOr nn ev.name, ev.createdAt, sys.now, sys.now⟩,
       { sys with
          store := saveVault (updatedRecord ev p d nn sys.rng sys.now) sys.store,
          rng := sys.rng + 1 }) := by
  unfold updateVault
  rw [hev]
  simp only [generateKeyFromPassword, encrypt, updatedRecord]

/-- `updateVault_ok` with the system state positional, for use at states built
inline. -/
theorem updateVault_ok_at (sys : Sys) {id : Nat} {p : String} {d : VaultData}
    {nn : Option String} {ev : EncryptedVault}
    (hev : getVault id sys.store = some ev) :
    updateVault id p d nn sys =
      (Except.ok ⟨ev.id, jsStringOr nn ev.name, ev.createdAt, sys.now, sys.now⟩,
       { sys with
          store := saveVault (updatedRecord ev p d nn sys.rng sys.now) sys.store,
          rng := sys.rng + 1 }) :=
  updateVault_ok hev

/-! ## Concrete fixtures used by witnesses and counterexamples -/

/-- A small plaintext fixture. -/
def sampleData : VaultData := { credentials := [], settings := none }

/-- A consistent stored record for password "hunter2": the ciphertext was
produced under the key derived from ("hunter2", salt 5) with iv 7, and the
record stores that same iv and salt. -/
def sampleVault : EncryptedVault :=
  { id := 1, name := "Personal",
    encryptedData := ⟨⟨"hunter2", 5⟩, 7, sampleData⟩,
    iv := 7, salt := 5, createdAt := 10, lastAccessed := 10, lastModified := 10 }

/-- The same record with a corrupted stored iv: the bytes no longer match the
authentication tag, so decryption fails even under the right password. -/
def corruptVault : EncryptedVault := { sampleVault with iv := 8 }

/-- A system whose store holds just the consistent record. -/
def sampleSys : Sys := { store := [sampleVault], rng := 20, now := 42 }

/-- A system whose store holds just the corrupted record. -/
def corruptSys : Sys := { store := [corruptVault], rng := 20, now := 42 }

/-! ## Claims -/

/-- Claim C5: for every VaultData `v` and password `p`, decrypting — with the
key derived from `p` (and the salt returned by derivation) and the iv produced
during encryption — the ciphertext obtained by encrypting `v` under that key
returns `v` exactly. -/
theorem C5_encrypt_decrypt_roundtrip (p : String) (v : VaultData) (rng : Nat) :
    decrypt (generateKeyFromPassword p none rng).1.1
      (encrypt (generateKeyFromPassword p none rng).1.1 v
        (generateKeyFromPassword p none rng).2).1.1
      (encrypt (generateKeyFromPassword p none rng).1.1 v
        (generateKeyFromPassword p none rng).2).1.2 = some v := by
  simp [generateKeyFromPassword, encrypt, decrypt]

/-- Claim C1: `openVault` fails with the not-found error when no record with
the given id exists; every decryption failure (whatever its cause — in
particular a wrong password) surfaces as the one generic
`incorrectPasswordOrCorrupt` error; and on every such failure the system —
in particular the persisted store — is returned unchanged. -/
theorem C1_openVault_failure_semantics (id : Nat) (p : String) (sys : Sys) :
    (getVault id sys.store = none →
      openVault id p sys = (Except.error VaultError.vaultNotFound, sys)) ∧
    (∀ ev : EncryptedVault, getVault id sys.store = some ev →
      decrypt ⟨p, ev.salt⟩ ev.encryptedData ev.iv = none →
      openVault id p sys = (Except.error VaultError.incorrectPasswordOrCorrupt, sys)) ∧
    (∀ ev : EncryptedVault, getVault id sys.store = some ev →
      ev.encryptedData.key.password ≠ p →
      openVault id p sys = (Except.error VaultError.incorrectPasswordOrCorrupt, sys)) := by
  refine ⟨fun h => openVault_notFound h,
          fun ev hev hdec => openVault_decryptFail hev hdec,
          fun ev hev hp => ?_⟩
  refine openVault_decryptFail hev ?_
  unfold decrypt
  rw [if_neg]
  rintro ⟨hk, -⟩
  exact hp (congrArg DerivedKey.password hk)

/-- Witness for C1 at concrete inputs: a missing id yields the not-found
error; a wrong password and corrupted stored bytes both yield the same
generic error, with the store unchanged. -/
theorem C1_openVault_failure_semantics_witness :
    openVault 99 "hunter2" sampleSys = (Except.error VaultError.vaultNotFound, sampleSys) ∧
    openVault 1 "wrong" sampleSys = (Except.error VaultError.incorrectPasswordOrCorrupt, sampleSys) ∧
    openVault 1 "hunter2" corruptSys = (Except.error VaultError.incorrectPasswordOrCorrupt, corruptSys) :=
  ⟨(C1_openVault_failure_semantics 99 "hunter2" sampleSys).1 (by decide),
   (C1_openVault_failure_semantics 1 "wrong" sampleSys).2.2 sampleVault (by decide) (by decide),
   (C1_openVault_failure_semantics 1 "hunter2" corruptSys).2.1 corruptVault (by decide) (by decide)⟩

/-- Claim C10: a successful `updateVault` leaves the stored record's `id`,
`createdAt` and `salt` exactly unchanged (only name, encryptedData, iv,
lastModified and lastAccessed may differ). -/
theorem C10_updateVault_frame (id : Nat) (p : String) (d : VaultData)
    (nn : Option String) (sys : Sys) (ev : EncryptedVault)
    (hev : getVault id sys.store = some ev) :
    (updateVault id p d nn sys).1.isOk = true ∧
    ∃ ev' : EncryptedVault,
      getVault id (updateVault id p d nn sys).2.store = some ev' ∧
      ev'.id = ev.id ∧ ev'.createdAt = ev.createdAt ∧ ev'.salt = ev.salt := by
  rw [updateVault_ok hev]
  refine ⟨rfl, updatedRecord ev p d nn sys.rng sys.now, ?_, rfl, rfl, rfl⟩
  have hid : (updatedRecord ev p d nn sys.rng sys.now).id = id := by
    rw [show (updatedRecord ev p d nn sys.rng sys.now).id = ev.id from rfl]
    exact getVault_id_eq hev
  calc getVault id (saveVault (updatedRecord ev p d nn sys.rng sys.now) sys.store)
      = getVault (updatedRecord ev p d nn sys.rng sys.now).id
          (saveVault (updatedRecord ev p d nn sys.rng sys.now) sys.store) := by rw [hid]
    _ = some (updatedRecord ev p d nn sys.rng sys.now) :=
        getVault_saveVault_same _ _

/-- Witness for C10: updating the sample vault keeps id, createdAt and salt. -/
theorem C10_updateVault_frame_witness :
    (updateVault 1 "hunter2" sampleData none sampleSys).1.isOk = true ∧
    ∃ ev' : EncryptedVault,
      getVault 1 (updateVault 1 "hunter2" sampleData none sampleSys).2.store = some ev' ∧
      ev'.id = sampleVault.id ∧ ev'.createdAt = sampleVault.createdAt ∧
      ev'.salt = sampleVault.salt :=
  C10_updateVault_frame 1 "hunter2" sampleData none sampleSys sampleVault (by decide)

/-- Counterexample to C2 as stated: on the sample store (one record whose
ciphertext is keyed to password "hunter2"), `updateVault` called with the
wrong password "wrong" does not fail — it succeeds and persists a changed
record.  The try block of `updateVault` derives a key from the stored salt
and the given password and encrypts with it, but never decrypts anything, so
a password mismatch is never detected. -/
theorem C2_counterexample :
    (updateVault 1 "wrong" sampleData none sampleSys).1.isOk = true ∧
    (updateVault 1 "wrong" sampleData none sampleSys).2.store ≠ sampleSys.store := by
  decide

/-- Claim C2 (amended): `updateVault` performs no password check.  For every
existing record and every password — matching or not — it succeeds, and it
persists the new data re-encrypted under the key derived from the stored salt
and the **given** password (so a wrong password silently re-keys the vault);
it fails only with the not-found error when the record is absent. -/
theorem C2_updateVault_no_password_check (id : Nat) (p : String) (d : VaultData)
    (nn : Option String) (sys : Sys) (ev : EncryptedVault)
    (hev : getVault id sys.store = some ev) :
    (updateVault id p d nn sys).1.isOk = true ∧
    ∃ ev' : EncryptedVault,
      getVault id (updateVault id p d nn sys).2.store = some ev' ∧
      ev'.encryptedData.key = ⟨p, ev.salt⟩ ∧ ev'.encryptedData.plain = d := by
  rw [updateVault_ok hev]
  refine ⟨rfl, updatedRecord ev p d nn sys.rng sys.now, ?_, rfl, rfl⟩
  have hid : (updatedRecord ev p d nn sys.rng sys.now).id = id := by
    rw [show (updatedRecord ev p d nn sys.rng sys.now).id = ev.id from rfl]
    exact getVault_id_eq hev
  rw [← hid]
  exact getVault_saveVault_same _ _

/-- Witness for the amended C2: with the wrong password "wrong" the update
succeeds and the stored ciphertext is now keyed to ("wrong", old salt). -/
theorem C2_updateVault_no_password_check_witness :
    (updateVault 1 "wrong" sampleData none sampleSys).1.isOk = true ∧
    ∃ ev' : EncryptedVault,
      getVault 1 (updateVault 1 "wrong" sampleData none sampleSys).2.store = some ev' ∧
      ev'.encryptedData.key = ⟨"wrong", sampleVault.salt⟩ ∧
      ev'.encryptedData.plain = sampleData :=
  C2_updateVault_no_password_check 1 "wrong" sampleData none sampleSys sampleVault (by decide)

/-- `createVault` written out: the uuid is the first fresh draw, the salt the
second, the iv the third. -/
theorem createVault_eq (name p : String) (sys : Sys) :
    createVault name p sys =
      (sys.rng,
       { sys with
          rng := sys.rng + 3,
          store := saveVault
            ⟨sys.rng, name, ⟨⟨p, sys.rng + 1⟩, sys.rng + 2, defaultVaultData⟩,
             sys.rng + 2, sys.rng + 1, sys.now, sys.now, sys.now⟩ sys.store }) := by
  simp only [createVault, generateKeyFromPassword, encrypt]

/-- Claim C7: `createVault` assigns a fresh id (new, provided every stored id
was drawn before the current rng counter), persists a record whose ciphertext
decrypts under the given password and the stored salt to the default
VaultData — empty credentials, default categories
["Login", "Financial", "Personal", "Work"] — and a subsequent `openVault`
with the same password returns exactly that default VaultData. -/
theorem C7_createVault_correct (name p : String) (sys : Sys)
    (hfresh : ∀ r' ∈ sys.store, r'.id < sys.rng) :
    (∀ r' ∈ sys.store, r'.id ≠ (createVault name p sys).1) ∧
    (∃ rec : EncryptedVault,
      getVault (createVault name p sys).1 (createVault name p sys).2.store = some rec ∧
      rec.id = (createVault name p sys).1 ∧
      decrypt ⟨p, rec.salt⟩ rec.encryptedData rec.iv = some defaultVaultData) ∧
    defaultVaultData.credentials = [] ∧
    (∃ st : VaultSettings, defaultVaultData.settings = some st ∧
      st.categories = some ["Login", "Financial", "Personal", "Work"]) ∧
    (∃ m : Vault,
      (openVault (createVault name p sys).1 p (createVault name p sys).2).1 =
        Except.ok (m, defaultVaultData)) := by
  rw [createVault_eq]
  have hR : getVault sys.rng
      (saveVault ⟨sys.rng, name, ⟨⟨p, sys.rng + 1⟩, sys.rng + 2, defaultVaultData⟩,
        sys.rng + 2, sys.rng + 1, sys.now, sys.now, sys.now⟩ sys.store) =
      some ⟨sys.rng, name, ⟨⟨p, sys.rng + 1⟩, sys.rng + 2, defaultVaultData⟩,
        sys.rng + 2, sys.rng + 1, sys.now, sys.now, sys.now⟩ :=
    getVault_saveVault_same
      ⟨sys.rng, name, ⟨⟨p, sys.rng + 1⟩, sys.rng + 2, defaultVaultData⟩,
        sys.rng + 2, sys.rng + 1, sys.now, sys.now, sys.now⟩ sys.store
  have hdec : decrypt ⟨p, sys.rng + 1⟩
      (⟨⟨p, sys.rng + 1⟩, sys.rng + 2, defaultVaultData⟩ : Ciphertext)
      (sys.rng + 2) = some defaultVaultData := by
    simp [decrypt]
  refine ⟨fun r' hr' => Nat.ne_of_lt (hfresh r' hr'),
          ⟨_, hR, rfl, hdec⟩, rfl, ⟨_, rfl, rfl⟩, ?_⟩
  refine ⟨⟨sys.rng, name, sys.now, sys.now, sys.now⟩, ?_⟩
  rw [openVault_ok hR hdec]

/-- Witness for C7: on the concrete sample system, opening the vault just
created with its password returns exactly the default VaultData. -/
theorem C7_createVault_correct_witness :
    ∃ m : Vault,
      (openVault (createVault "Jobs" "pw" sampleSys).1 "pw"
        (createVault "Jobs" "pw" sampleSys).2).1 =
        Except.ok (m, defaultVaultData) :=
  (C7_createVault_correct "Jobs" "pw" sampleSys (by decide)).2.2.2.2

/-- The record `changeMasterPassword` persists on success: fresh salt (the
next rng draw), fresh iv (the draw after), ciphertext under the new key. -/
def rotatedRecord (ev : EncryptedVault) (newPassword : String) (v : VaultData)
    (rng now : Nat) : EncryptedVault :=
  { ev with
      encryptedData := ⟨⟨newPassword, rng⟩, rng + 1, v⟩,
      iv := rng + 1, salt := rng, lastModified := now, lastAccessed := now }

theorem changeMasterPassword_ok {id : Nat} {old np : String} {sys : Sys}
    {ev : EncryptedVault} {v : VaultData}
    (hev : getVault id sys.store = some ev)
    (hdec : decrypt ⟨old, ev.salt⟩ ev.encryptedData ev.iv = some v) :
    changeMasterPassword id old np sys =
      (Except.ok (),
       { sys with
          rng := sys.rng + 2,
          store := saveVault (rotatedRecord ev np v sys.rng sys.now)
            (saveVault { ev with lastAccessed := sys.now } sys.store) }) := by
  have hid : ev.id = id := getVault_id_eq hev
  have hgv₁ : getVault id (saveVault { ev with lastAccessed := sys.now } sys.store) =
      some { ev with lastAccessed := sys.now } := by
    rw [show id = ({ ev with lastAccessed := sys.now } : EncryptedVault).id from hid.symm]
    exact getVault_saveVault_same _ sys.store
  unfold changeMasterPassword
  rw [openVault_ok hev hdec]
  simp only [generateKeyFromPassword, encrypt]
  rw [hgv₁]
  rfl

theorem changeMasterPassword_wrongCurrent {id : Nat} {q np : String} {sys : Sys}
    {ev : EncryptedVault}
    (hev : getVault id sys.store = some ev)
    (hdec : decrypt ⟨q, ev.salt⟩ ev.encryptedData ev.iv = none) :
    changeMasterPassword id q np sys =
      (Except.error VaultError.incorrectPasswordOrCorrupt, sys) := by
  unfold changeMasterPassword
  rw [openVault_decryptFail hev hdec]

/-- Claim C3: for a vault storing plaintext `v` under master password `old`,
a successful `changeMasterPassword id old np` leaves a store where opening
with `old` fails, opening with `np` succeeds and returns exactly `v`, and the
persisted record carries a freshly drawn salt different from the previous one
(freshness of the rng counter over the stored salt is the hypothesis
`hsaltfresh`); and `changeMasterPassword` fails, changing nothing, whenever
the current password is wrong. -/
theorem C3_changeMasterPassword_correct (id : Nat) (old np : String) (sys : Sys)
    (ev : EncryptedVault) (v : VaultData)
    (hev : getVault id sys.store = some ev)
    (hkey : ev.encryptedData.key = ⟨old, ev.salt⟩)
    (hiv : ev.encryptedData.iv = ev.iv)
    (hplain : ev.encryptedData.plain = v)
    (hne : old ≠ np)
    (hsaltfresh : ev.salt < sys.rng) :
    (changeMasterPassword id old np sys).1 = Except.ok () ∧
    (openVault id old (changeMasterPassword id old np sys).2).1 =
      Except.error VaultError.incorrectPasswordOrCorrupt ∧
    (∃ m : Vault,
      (openVault id np (changeMasterPassword id old np sys).2).1 =
        Except.ok (m, v)) ∧
    (∃ rec : EncryptedVault,
      getVault id (changeMasterPassword id old np sys).2.store = some rec ∧
      rec.salt ≠ ev.salt) ∧
    (∀ q : String, q ≠ old →
      changeMasterPassword id q np sys =
        (Except.error VaultError.incorrectPasswordOrCorrupt, sys)) := by
  have hid : ev.id = id := getVault_id_eq hev
  have hdec : decrypt ⟨old, ev.salt⟩ ev.encryptedData ev.iv = some v := by
    simp [decrypt, hkey, hiv, hplain]
  have hcmp := @changeMasterPassword_ok id old np sys ev v hev hdec
  have hgvF : getVault id (changeMasterPassword id old np sys).2.store =
      some (rotatedRecord ev np v sys.rng sys.now) := by
    rw [hcmp]
    rw [show id = (rotatedRecord ev np v sys.rng sys.now).id from hid.symm]
    exact getVault_saveVault_same _ _
  have hdecOld : decrypt ⟨old, (rotatedRecord ev np v sys.rng sys.now).salt⟩
      (rotatedRecord ev np v sys.rng sys.now).encryptedData
      (rotatedRecord ev np v sys.rng sys.now).iv = none := by
    simp [decrypt, rotatedRecord, hne.symm]
  have hdecNew : decrypt ⟨np, (rotatedRecord ev np v sys.rng sys.now).salt⟩
      (rotatedRecord ev np v sys.rng sys.now).encryptedData
      (rotatedRecord ev np v sys.rng sys.now).iv = some v := by
    simp [decrypt, rotatedRecord]
  refine ⟨by rw [hcmp], ?_, ?_, ?_, ?_⟩
  · rw [openVault_decryptFail hgvF hdecOld]
  · refine ⟨⟨(rotatedRecord ev np v sys.rng sys.now).id,
      (rotatedRecord ev np v sys.rng sys.now).name,
      (rotatedRecord ev np v sys.rng sys.now).createdAt,
      (changeMasterPassword id old np sys).2.now,
      (rotatedRecord ev np v sys.rng sys.now).lastModified⟩, ?_⟩
    rw [openVault_ok hgvF hdecNew]
  · exact ⟨rotatedRecord ev np v sys.rng sys.now, hgvF,
      Ne.symm (Nat.ne_of_lt hsaltfresh)⟩
  · intro q hq
    have hdq : decrypt ⟨q, ev.salt⟩ ev.encryptedData ev.iv = none := by
      unfold decrypt
      rw [if_neg]
      rintro ⟨hk, -⟩
      rw [hkey] at hk
      exact hq (congrArg DerivedKey.password hk).symm
    exact changeMasterPassword_wrongCurrent hev hdq

/-- Witness for C3 at the concrete sample vault: rotating "hunter2" to "next"
succeeds, the old password no longer opens the vault, the new one returns the
original plaintext, the salt changed, and a wrong current password fails. -/
theorem C3_changeMasterPassword_correct_witness :
    (changeMasterPassword 1 "hunter2" "next" sampleSys).1 = Except.ok () ∧
    (openVault 1 "hunter2" (changeMasterPassword 1 "hunter2" "next" sampleSys).2).1 =
      Except.error VaultError.incorrectPasswordOrCorrupt ∧
    (∃ m : Vault,
      (openVault 1 "next" (changeMasterPassword 1 "hunter2" "next" sampleSys).2).1 =
        Except.ok (m, sampleData)) ∧
    (∃ rec : EncryptedVault,
      getVault 1 (changeMasterPassword 1 "hunter2" "next" sampleSys).2.store = some rec ∧
      rec.salt ≠ sampleVault.salt) ∧
    (∀ q : String, q ≠ "hunter2" →
      changeMasterPassword 1 q "next" sampleSys =
        (Except.error VaultError.incorrectPasswordOrCorrupt, sampleSys)) :=
  C3_changeMasterPassword_correct 1 "hunter2" "next" sampleSys sampleVault sampleData
    (by decide) (by decide) (by decide) (by decide) (by decide) (by decide)

theorem passwordCharset_pos {options : PasswordOptions}
    (h : options.uppercase = true ∨ options.lowercase = true ∨
      options.numbers = true ∨ options.symbols = true) :
    0 < (passwordCharset options).length := by
  obtain ⟨u, l, n, s⟩ := options
  cases u <;> cases l <;> cases n <;> cases s <;>
    first
    | exact absurd h (by decide)
    | decide

theorem generatePassword_ok {options : PasswordOptions} (length : Nat)
    (randomArray : List Nat) (hpos : 0 < (passwordCharset options).length) :
    ∃ s : String, generatePassword length options randomArray = Except.ok s ∧
      s.length = length ∧
      s.data = (List.range length).map (fun i =>
        (passwordCharset options).data.getD
          (randomArray.getD i 0 % (passwordCharset options).data.length) 'A') ∧
      ∀ c ∈ s.data, c ∈ (passwordCharset options).data := by
  have hne : ¬ (passwordCharset options).length = 0 := Nat.pos_iff_ne_zero.mp hpos
  refine ⟨String.mk ((List.range length).map
      (fun i => (passwordCharset options).data.getD
        (randomArray.getD i 0 % (passwordCharset options).data.length) 'A')),
    ?_, ?_, rfl, ?_⟩
  · unfold generatePassword
    rw [if_neg hne]
  · show ((List.range length).map _).length = length
    rw [List.length_map, List.length_range]
  · intro c hc
    simp only [List.mem_map, List.mem_range] at hc
    obtain ⟨i, -, rfl⟩ := hc
    have hlt : randomArray.getD i 0 % (passwordCharset options).data.length <
        (passwordCharset options).data.length :=
      Nat.mod_lt _ hpos
    rw [List.getD_eq_getElem _ _ hlt]
    exact List.getElem_mem _

/-- Claim C8: `generatePassword` with no charset flag selected fails with the
validation error; with at least one flag it returns a string of exactly
`length` characters, character `i` being the combined charset indexed at
(random byte `i`) mod (charset length), so each character is drawn from the
selected classes only; with only `uppercase` selected every character is in
A–Z. -/
theorem C8_generatePassword (length : Nat) (options : PasswordOptions)
    (randomArray : List Nat) :
    (options = ⟨false, false, false, false⟩ →
      generatePassword length options randomArray =
        Except.error CryptoError.validationError) ∧
    ((options.uppercase = true ∨ options.lowercase = true ∨
        options.numbers = true ∨ options.symbols = true) →
      ∃ s : String, generatePassword length options randomArray = Except.ok s ∧
        s.length = length ∧
        s.data = (List.range length).map (fun i =>
          (passwordCharset options).data.getD
            (randomArray.getD i 0 % (passwordCharset options).data.length) 'A') ∧
        ∀ c ∈ s.data, c ∈ (passwordCharset options).data) ∧
    (options = ⟨true, false, false, false⟩ →
      ∃ s : String, generatePassword length options randomArray = Except.ok s ∧
        s.length = length ∧ ∀ c ∈ s.data, c ∈ uppercaseChars.data) := by
  refine ⟨fun h => by subst h; rfl,
          fun h => generatePassword_ok length randomArray (passwordCharset_pos h),
          fun h => ?_⟩
  subst h
  obtain ⟨s, hok, hlen, -, hmem⟩ :=
    @generatePassword_ok ⟨true, false, false, false⟩ length randomArray
      (by decide)
  refine ⟨s, hok, hlen, fun c hc => ?_⟩
  have hcs : passwordCharset ⟨true, false, false, false⟩ = uppercaseChars := by decide
  rw [← hcs]
  exact hmem c hc

/-- Witness for C8: on four concrete random bytes with only uppercase
selected, the output has length 4 and stays inside A–Z; with all flags off
the call fails with the validation error. -/
theorem C8_generatePassword_witness :
    generatePassword 4 ⟨false, false, false, false⟩ [0, 25, 26, 255] =
      Except.error CryptoError.validationError ∧
    ∃ s : String, generatePassword 4 ⟨true, false, false, false⟩ [0, 25, 26, 255] =
      Except.ok s ∧ s.length = 4 ∧ ∀ c ∈ s.data, c ∈ uppercaseChars.data :=
  ⟨(C8_generatePassword 4 ⟨false, false, false, false⟩ [0, 25, 26, 255]).1 rfl,
   (C8_generatePassword 4 ⟨true, false, false, false⟩ [0, 25, 26, 255]).2.2 rfl⟩

/-! ## Backup import (storage.ts `importData`) -/

/-- The whole IndexedDB database: the vaults store plus the singleton
app-settings slot. -/
structure Storage where
  vaults : List EncryptedVault
  appSettings : Option AppSettings
deriving DecidableEq, Repr

/-- storage.ts `saveSettings`: `put` under the one fixed key of the settings
store. -/
def saveSettings (s : AppSettings) (st : Storage) : Storage :=
  { st with appSettings := some s }

/-- The `vaults` field of the parsed backup JSON, to the depth the code
inspects it: `!data.vaults || !Array.isArray(data.vaults)` holds exactly when
the field is absent or not an array (an array is always truthy). -/
inductive BackupVaultsField where
  | arr (records : List EncryptedVault)
  | nonArray
deriving DecidableEq, Repr

/-- The parsed backup document: an optional `vaults` field and an optional
(possibly-null, hence falsy and skipped) `settings` object.  `exportDate` and
`version` are never read by the import path. -/
structure BackupData where
  vaults : Option BackupVaultsField
  settings : Option AppSettings
deriving DecidableEq, Repr

/-- The error `importData` throws on a malformed backup. -/
inductive ImportError where
  | invalidFormat
deriving DecidableEq, Repr

/-- storage.ts `importData`: validate that `vaults` is present and an array,
else fail; `saveVault` each record in order; then `saveSettings` when a
settings object is present. -/
def importData (data : BackupData) (st : Storage) : Except ImportError Storage :=
  match data.vaults with
  | some (BackupVaultsField.arr records) =>
    let st₁ := { st with
      vaults := records.foldl (fun acc v => saveVault v acc) st.vaults }
    match data.settings with
    | some s => Except.ok (saveSettings s st₁)
    | none => Except.ok st₁
  | _ => Except.error ImportError.invalidFormat

/-- The last record in a backup sequence carrying a given id — the one whose
upsert wins. -/
def lastWithId (i : Nat) (records : List EncryptedVault) : Option EncryptedVault :=
  records.reverse.find? (fun r => r.id == i)

theorem getVault_foldl_saveVault (records : List EncryptedVault)
    (s : List EncryptedVault) (i : Nat) :
    getVault i (records.foldl (fun acc v => saveVault v acc) s) =
      (lastWithId i records).or (getVault i s) := by
  induction records generalizing s with
  | nil => simp [lastWithId, getVault]
  | cons v rest ih =>
    rw [List.foldl_cons, ih (saveVault v s)]
    have hsplit : lastWithId i (v :: rest) =
        (lastWithId i rest).or (List.find? (fun r => r.id == i) [v]) := by
      simp only [lastWithId, List.reverse_cons, List.find?_append]
    rw [hsplit]
    cases hrest : lastWithId i rest with
    | some w => simp [Option.or]
    | none =>
      simp only [Option.or]
      by_cases h : i = v.id
      · subst h
        rw [getVault_saveVault_same v s]
        simp [List.find?]
      · rw [getVault_saveVault_ne v s h]
        have : (v.id == i) = false := by simp [Ne.symm h]
        simp [List.find?, this]

/-- Claim C9: `importData` fails with the invalid-format error exactly when
the parsed backup lacks a `vaults` field or that field is not a sequence;
otherwise it succeeds, every record in `vaults` is upserted into the store
keyed by its id (so a lookup after import returns the last imported record
with that id, and falls back to the prior store for untouched ids), and an
included settings object overwrites the singleton app-settings slot. -/
theorem C9_importData (data : BackupData) (st : Storage) :
    (importData data st = Except.error ImportError.invalidFormat ↔
      data.vaults = none ∨ data.vaults = some BackupVaultsField.nonArray) ∧
    (∀ records : List EncryptedVault,
      data.vaults = some (BackupVaultsField.arr records) →
      ∃ st' : Storage, importData data st = Except.ok st' ∧
        (∀ i : Nat, getVault i st'.vaults =
          (lastWithId i records).or (getVault i st.vaults)) ∧
        st'.appSettings = (data.settings.or st.appSettings)) := by
  constructor
  · constructor
    · intro h
      match hv : data.vaults with
      | none => exact Or.inl rfl
      | some BackupVaultsField.nonArray => exact Or.inr rfl
      | some (BackupVaultsField.arr records) =>
        rw [importData, hv] at h
        cases hs : data.settings <;> rw [hs] at h <;> exact absurd h (by simp)
    · intro h
      rcases h with h | h <;> rw [importData, h]
  · intro records hv
    rw [importData, hv]
    cases hs : data.settings with
    | some s =>
      refine ⟨_, rfl, fun i => ?_, ?_⟩
      · exact getVault_foldl_saveVault records st.vaults i
      · simp [saveSettings, Option.or]
    | none =>
      refine ⟨_, rfl, fun i => ?_, ?_⟩
      · exact getVault_foldl_saveVault records st.vaults i
      · simp [Option.or]

/-- Witness for C9 at a concrete backup: importing two records (the second
replacing the sample vault's id) plus a settings object succeeds; the lookup
characterization and the settings overwrite hold for that import. -/
theorem C9_importData_witness :
    ∃ st' : Storage,
      importData
        ⟨some (BackupVaultsField.arr [corruptVault, { sampleVault with name := "B" }]),
         some ⟨true, 30, none⟩⟩
        ⟨[sampleVault], none⟩ = Except.ok st' ∧
      (∀ i : Nat, getVault i st'.vaults =
        (lastWithId i [corruptVault, { sampleVault with name := "B" }]).or
          (getVault i [sampleVault])) ∧
      st'.appSettings = ((some ⟨true, 30, none⟩ : Option AppSettings).or none) :=
  (C9_importData
    ⟨some (BackupVaultsField.arr [corruptVault, { sampleVault with name := "B" }]),
     some ⟨true, 30, none⟩⟩
    ⟨[sampleVault], none⟩).2
    [corruptVault, { sampleVault with name := "B" }] rfl

/-! ## Atomicity (claim C4) -/

/-- All-or-nothing outcome of one vault operation on the record `id`: either
it succeeded and the store is the prior store with exactly one full record
upserted at `id`, or it failed and the store is untouched. -/
def atomicOutcome {α : Type} (id : Nat) (sys : Sys)
    (res : Except VaultError α × Sys) : Prop :=
  (res.1.isOk = true ∧
    ∃ r : EncryptedVault, r.id = id ∧ res.2.store = saveVault r sys.store) ∨
  (res.1.isOk = false ∧ res.2.store = sys.store)

/-- Counterexample to C4 as stated: `updateCredential` on the sample vault
with an absent credential id fails with the credential-not-found error, yet
the store does not remain byte-for-byte what it was — the `openVault` step
already persisted a bumped `lastAccessed`. -/
theorem C4_counterexample :
    (updateCredential 1 "hunter2" 999 {} sampleSys).1 =
      Except.error VaultError.credentialNotFound ∧
    (updateCredential 1 "hunter2" 999 {} sampleSys).2.store ≠ sampleSys.store :=
  ⟨by rfl, by decide⟩

theorem getVault_saveVault_bump {id : Nat} {sys : Sys} {ev : EncryptedVault}
    (hev : getVault id sys.store = some ev) :
    getVault id (saveVault { ev with lastAccessed := sys.now } sys.store) =
      some { ev with lastAccessed := sys.now } := by
  rw [show id = ({ ev with lastAccessed := sys.now } : EncryptedVault).id from
    (getVault_id_eq hev).symm]
  exact getVault_saveVault_same _ sys.store

/-- Full evaluation of a successful `addCredential`: the new credential takes
the next fresh uuid with createdAt = lastModified = now, and the final store
is the prior store with first the `lastAccessed` bump and then the full
re-encrypted record upserted. -/
theorem addCredential_ok {id : Nat} {p : String} {sys : Sys}
    {ev : EncryptedVault} {v : VaultData} (c : CredentialInput)
    (hev : getVault id sys.store = some ev)
    (hdec : decrypt ⟨p, ev.salt⟩ ev.encryptedData ev.iv = some v) :
    addCredential id p c sys =
      (Except.ok ⟨sys.rng, c.title, c.username, c.password, c.url, c.notes,
        c.category, c.tags, sys.now, sys.now⟩,
       { sys with
          rng := sys.rng + 2,
          store := saveVault
            (updatedRecord { ev with lastAccessed := sys.now } p
              { v with credentials := v.credentials ++
                  [⟨sys.rng, c.title, c.username, c.password, c.url, c.notes,
                    c.category, c.tags, sys.now, sys.now⟩] }
              none (sys.rng + 1) sys.now)
            (saveVault { ev with lastAccessed := sys.now } sys.store) }) := by
  unfold addCredential
  rw [openVault_ok hev hdec]
  dsimp only
  rw [updateVault_ok_at
    ⟨saveVault { ev with lastAccessed := sys.now } sys.store,
     sys.rng + 1, sys.now⟩
    (getVault_saveVault_bump hev)]

/-- Full evaluation of a successful `deleteCredential`. -/
theorem deleteCredential_ok {id : Nat} {p : String} {sys : Sys}
    {ev : EncryptedVault} {v : VaultData} (cid : Nat)
    (hev : getVault id sys.store = some ev)
    (hdec : decrypt ⟨p, ev.salt⟩ ev.encryptedData ev.iv = some v) :
    deleteCredential id p cid sys =
      (Except.ok (),
       { sys with
          rng := sys.rng + 1,
          store := saveVault
            (updatedRecord { ev with lastAccessed := sys.now } p
              { v with credentials := v.credentials.filter (fun c => c.id != cid) }
              none sys.rng sys.now)
            (saveVault { ev with lastAccessed := sys.now } sys.store) }) := by
  unfold deleteCredential
  rw [openVault_ok hev hdec]
  dsimp only
  rw [updateVault_ok_at
    ⟨saveVault { ev with lastAccessed := sys.now } sys.store,
     sys.rng, sys.now⟩
    (getVault_saveVault_bump hev)]

/-- Full evaluation of a successful `updateVaultSettings`. -/
theorem updateVaultSettings_ok {id : Nat} {p : String} {sys : Sys}
    {ev : EncryptedVault} {v : VaultData} (st : Option VaultSettings)
    (hev : getVault id sys.store = some ev)
    (hdec : decrypt ⟨p, ev.salt⟩ ev.encryptedData ev.iv = some v) :
    updateVaultSettings id p st sys =
      (Except.ok (),
       { sys with
          rng := sys.rng + 1,
          store := saveVault
            (updatedRecord { ev with lastAccessed := sys.now } p
              { v with settings := some (mergeVaultSettings v.settings st) }
              none sys.rng sys.now)
            (saveVault { ev with lastAccessed := sys.now } sys.store) }) := by
  unfold updateVaultSettings
  rw [openVault_ok hev hdec]
  dsimp only
  rw [updateVault_ok_at
    ⟨saveVault { ev with lastAccessed := sys.now } sys.store,
     sys.rng, sys.now⟩
    (getVault_saveVault_bump hev)]

/-- `updateCredential` when the credential id is absent: the error comes only
after the `openVault` step persisted the `lastAccessed` bump. -/
theorem updateCredential_notFound_eq {id : Nat} {p : String} {sys : Sys}
    {ev : EncryptedVault} {v : VaultData} (cid : Nat) (u : CredentialUpdates)
    (hev : getVault id sys.store = some ev)
    (hdec : decrypt ⟨p, ev.salt⟩ ev.encryptedData ev.iv = some v)
    (hidx : ¬ v.credentials.findIdx (fun c => c.id == cid) < v.credentials.length) :
    updateCredential id p cid u sys =
      (Except.error VaultError.credentialNotFound,
       { sys with
          store := saveVault { ev with lastAccessed := sys.now } sys.store }) := by
  unfold updateCredential
  rw [openVault_ok hev hdec]
  dsimp only
  rw [dif_neg hidx]

/-- `updateCredential` when the credential id is present. -/
theorem updateCredential_found_eq {id : Nat} {p : String} {sys : Sys}
    {ev : EncryptedVault} {v : VaultData} (cid : Nat) (u : CredentialUpdates)
    (hev : getVault id sys.store = some ev)
    (hdec : decrypt ⟨p, ev.salt⟩ ev.encryptedData ev.iv = some v)
    (hidx : v.credentials.findIdx (fun c => c.id == cid) < v.credentials.length) :
    updateCredential id p cid u sys =
      (Except.ok (applyUpdates
          (v.credentials.get ⟨v.credentials.findIdx (fun c => c.id == cid), hidx⟩)
          u sys.now),
       { sys with
          rng := sys.rng + 1,
          store := saveVault
            (updatedRecord { ev with lastAccessed := sys.now } p
              { v with
                  credentials :=
                    v.credentials.set
                      (v.credentials.findIdx (fun c => c.id == cid))
                      (applyUpdates
                        (v.credentials.get
                          ⟨v.credentials.findIdx (fun c => c.id == cid), hidx⟩)
                        u sys.now) }
              none sys.rng sys.now)
            (saveVault { ev with lastAccessed := sys.now } sys.store) }) := by
  unfold updateCredential
  rw [openVault_ok hev hdec]
  dsimp only
  rw [dif_pos hidx]
  rw [updateVault_ok_at
    ⟨saveVault { ev with lastAccessed := sys.now } sys.store,
     sys.rng, sys.now⟩
    (getVault_saveVault_bump hev)]

/-- Claim C4 (amended): every operation except `updateCredential` is
all-or-nothing — the full decrypt-mutate-encrypt-persist sequence completes
and exactly one new record is upserted, or the operation fails and the store
is unchanged.  `createVault` always completes.  `updateCredential` has one
further outcome, forced by the counterexample: when the vault opens but the
credential id is absent, the operation fails after the `openVault` step has
already persisted the record with a bumped `lastAccessed` timestamp — the
only partial write the service can leave behind. -/
theorem C4_operations_atomic :
    (∀ (id : Nat) (p : String) (sys : Sys),
      atomicOutcome id sys (openVault id p sys)) ∧
    (∀ (id : Nat) (p : String) (d : VaultData) (nn : Option String) (sys : Sys),
      atomicOutcome id sys (updateVault id p d nn sys)) ∧
    (∀ (name p : String) (sys : Sys),
      ∃ r : EncryptedVault, r.id = (createVault name p sys).1 ∧
        (createVault name p sys).2.store = saveVault r sys.store) ∧
    (∀ (id : Nat) (cur np : String) (sys : Sys),
      atomicOutcome id sys (changeMasterPassword id cur np sys)) ∧
    (∀ (id : Nat) (p : String) (c : CredentialInput) (sys : Sys),
      atomicOutcome id sys (addCredential id p c sys)) ∧
    (∀ (id : Nat) (p : String) (cid : Nat) (sys : Sys),
      atomicOutcome id sys (deleteCredential id p cid sys)) ∧
    (∀ (id : Nat) (p : String) (st : Option VaultSettings) (sys : Sys),
      atomicOutcome id sys (updateVaultSettings id p st sys)) ∧
    (∀ (id : Nat) (p : String) (cid : Nat) (u : CredentialUpdates) (sys : Sys),
      atomicOutcome id sys (updateCredential id p cid u sys) ∨
      ((updateCredential id p cid u sys).1 =
          Except.error VaultError.credentialNotFound ∧
        ∃ ev : EncryptedVault, getVault id sys.store = some ev ∧
          (updateCredential id p cid u sys).2.store =
            saveVault { ev with lastAccessed := sys.now } sys.store)) := by
  refine ⟨?_, ?_, ?_, ?_, ?_, ?_, ?_, ?_⟩
  · -- openVault
    intro id p sys
    unfold atomicOutcome
    cases hev : getVault id sys.store with
    | none =>
      right
      rw [openVault_notFound hev]
      exact ⟨rfl, rfl⟩
    | some ev =>
      cases hdec : decrypt ⟨p, ev.salt⟩ ev.encryptedData ev.iv with
      | none =>
        right
        rw [openVault_decryptFail hev hdec]
        exact ⟨rfl, rfl⟩
      | some v =>
        left
        rw [openVault_ok hev hdec]
        exact ⟨rfl, { ev with lastAccessed := sys.now },
          (getVault_id_eq hev : ev.id = id), rfl⟩
  · -- updateVault
    intro id p d nn sys
    unfold atomicOutcome
    cases hev : getVault id sys.store with
    | none =>
      right
      rw [updateVault_notFound hev]
      exact ⟨rfl, rfl⟩
    | some ev =>
      left
      rw [updateVault_ok hev]
      refine ⟨rfl, updatedRecord ev p d nn sys.rng sys.now, ?_, rfl⟩
      rw [show (updatedRecord ev p d nn sys.rng sys.now).id = ev.id from rfl]
      exact getVault_id_eq hev
  · -- createVault
    intro name p sys
    rw [createVault_eq]
    exact ⟨_, rfl, rfl⟩
  · -- changeMasterPassword
    intro id cur np sys
    unfold atomicOutcome
    cases hev : getVault id sys.store with
    | none =>
      right
      unfold changeMasterPassword
      rw [openVault_notFound hev]
      exact ⟨rfl, rfl⟩
    | some ev =>
      cases hdec : decrypt ⟨cur, ev.salt⟩ ev.encryptedData ev.iv with
      | none =>
        right
        rw [changeMasterPassword_wrongCurrent hev hdec]
        exact ⟨rfl, rfl⟩
      | some v =>
        left
        rw [changeMasterPassword_ok hev hdec]
        refine ⟨rfl, rotatedRecord ev np v sys.rng sys.now,
          (getVault_id_eq hev : ev.id = id), ?_⟩
        dsimp only
        apply saveVault_saveVault
        rfl
  · -- addCredential
    intro id p c sys
    unfold atomicOutcome
    cases hev : getVault id sys.store with
    | none =>
      right
      unfold addCredential
      rw [openVault_notFound hev]
      exact ⟨rfl, rfl⟩
    | some ev =>
      cases hdec : decrypt ⟨p, ev.salt⟩ ev.encryptedData ev.iv with
      | none =>
        right
        unfold addCredential
        rw [openVault_decryptFail hev hdec]
        exact ⟨rfl, rfl⟩
      | some v =>
        left
        rw [addCredential_ok c hev hdec]
        refine ⟨rfl,
          updatedRecord { ev with lastAccessed := sys.now } p
            { v with credentials := v.credentials ++
                [⟨sys.rng, c.title, c.username, c.password, c.url, c.notes,
                  c.category, c.tags, sys.now, sys.now⟩] }
            none (sys.rng + 1) sys.now,
          (getVault_id_eq hev : ev.id = id), ?_⟩
        dsimp only
        apply saveVault_saveVault
        rfl
  · -- deleteCredential
    intro id p cid sys
    unfold atomicOutcome
    cases hev : getVault id sys.store with
    | none =>
      right
      unfold deleteCredential
      rw [openVault_notFound hev]
      exact ⟨rfl, rfl⟩
    | some ev =>
      cases hdec : decrypt ⟨p, ev.salt⟩ ev.encryptedData ev.iv with
      | none =>
        right
        unfold deleteCredential
        rw [openVault_decryptFail hev hdec]
        exact ⟨rfl, rfl⟩
      | some v =>
        left
        rw [deleteCredential_ok cid hev hdec]
        refine ⟨rfl,
          updatedRecord { ev with lastAccessed := sys.now } p
            { v with credentials := v.credentials.filter (fun c => c.id != cid) }
            none sys.rng sys.now,
          (getVault_id_eq hev : ev.id = id), ?_⟩
        dsimp only
        apply saveVault_saveVault
        rfl
  · -- updateVaultSettings
    intro id p st sys
    unfold atomicOutcome
    cases hev : getVault id sys.store with
    | none =>
      right
      unfold updateVaultSettings
      rw [openVault_notFound hev]
      exact ⟨rfl, rfl⟩
    | some ev =>
      cases hdec : decrypt ⟨p, ev.salt⟩ ev.encryptedData ev.iv with
      | none =>
        right
        unfold updateVaultSettings
        rw [openVault_decryptFail hev hdec]
        exact ⟨rfl, rfl⟩
      | some v =>
        left
        rw [updateVaultSettings_ok st hev hdec]
        refine ⟨rfl,
          updatedRecord { ev with lastAccessed := sys.now } p
            { v with settings := some (mergeVaultSettings v.settings st) }
            none sys.rng sys.now,
          (getVault_id_eq hev : ev.id = id), ?_⟩
        dsimp only
        apply saveVault_saveVault
        rfl
  · -- updateCredential
    intro id p cid u sys
    cases hev : getVault id sys.store with
    | none =>
      left
      unfold atomicOutcome
      right
      unfold updateCredential
      rw [openVault_notFound hev]
      exact ⟨rfl, rfl⟩
    | some ev =>
      cases hdec : decrypt ⟨p, ev.salt⟩ ev.encryptedData ev.iv with
      | none =>
        left
        unfold atomicOutcome
        right
        unfold updateCredential
        rw [openVault_decryptFail hev hdec]
        exact ⟨rfl, rfl⟩
      | some v =>
        by_cases hidx :
          v.credentials.findIdx (fun c => c.id == cid) < v.credentials.length
        · left
          unfold atomicOutcome
          left
          rw [updateCredential_found_eq cid u hev hdec hidx]
          refine ⟨rfl,
            updatedRecord { ev with lastAccessed := sys.now } p
              { v with
                  credentials :=
                    v.credentials.set
                      (v.credentials.findIdx (fun c => c.id == cid))
                      (applyUpdates
                        (v.credentials.get
                          ⟨v.credentials.findIdx (fun c => c.id == cid), hidx⟩)
                        u sys.now) }
              none sys.rng sys.now,
            (getVault_id_eq hev : ev.id = id), ?_⟩
          dsimp only
          apply saveVault_saveVault
          rfl
        · right
          rw [updateCredential_notFound_eq cid u hev hdec hidx]
          exact ⟨rfl, ev, rfl, rfl⟩

/-! ## Repeated addCredential (claim C6) -/

/-- N successive `addCredential` calls threading the system state. -/
def addCredentialSeq (vaultId : Nat) (p : String)
    (inputs : List CredentialInput) (sys : Sys) : Sys :=
  inputs.foldl (fun s c => (addCredential vaultId p c s).2) sys

/-- Every call in the sequence returned ok. -/
def addCredentialSeqOk (vaultId : Nat) (p : String) :
    List CredentialInput → Sys → Prop
  | [], _ => True
  | c :: cs, sys =>
    (addCredential vaultId p c sys).1.isOk = true ∧
    addCredentialSeqOk vaultId p cs (addCredential vaultId p c sys).2

/-- Abstract step facts about one successful `addCredential` against a vault
that opens under `p`: it returns ok with a credential whose id is the next
fresh draw and whose createdAt and lastModified are both now; the stored
record again opens under `p` and its credential list grew by exactly that
credential; the rng advanced by two draws (uuid and iv). -/
theorem addCredential_step (id : Nat) (p : String) (sys : Sys)
    (ev : EncryptedVault) (c : CredentialInput)
    (hev : getVault id sys.store = some ev)
    (hkey : ev.encryptedData.key = ⟨p, ev.salt⟩)
    (hiv : ev.encryptedData.iv = ev.iv) :
    ∃ u : EncryptedVault, ∃ newC : Credential,
      (addCredential id p c sys).1 = Except.ok newC ∧
      getVault id (addCredential id p c sys).2.store = some u ∧
      u.encryptedData.key = ⟨p, u.salt⟩ ∧
      u.encryptedData.iv = u.iv ∧
      u.encryptedData.plain.credentials =
        ev.encryptedData.plain.credentials ++ [newC] ∧
      newC.id = sys.rng ∧ newC.createdAt = sys.now ∧
      newC.lastModified = sys.now ∧
      (addCredential id p c sys).2.rng = sys.rng + 2 ∧
      (addCredential id p c sys).2.now = sys.now := by
  have hdec : decrypt ⟨p, ev.salt⟩ ev.encryptedData ev.iv =
      some ev.encryptedData.plain := by
    simp [decrypt, hkey, hiv]
  have step := addCredential_ok c hev hdec
  refine ⟨updatedRecord { ev with lastAccessed := sys.now } p
      { ev.encryptedData.plain with
          credentials := ev.encryptedData.plain.credentials ++
            [⟨sys.rng, c.title, c.username, c.password, c.url, c.notes,
              c.category, c.tags, sys.now, sys.now⟩] }
      none (sys.rng + 1) sys.now,
    ⟨sys.rng, c.title, c.username, c.password, c.url, c.notes, c.category,
      c.tags, sys.now, sys.now⟩,
    ?_, ?_, rfl, rfl, rfl, rfl, rfl, rfl, ?_, ?_⟩
  · rw [step]
  · rw [step]
    dsimp only
    apply getVault_saveVault_of_id
    exact (getVault_id_eq hev : ev.id = id)
  · rw [step]
  · rw [step]

/-- Claim C6: starting from a vault that opens under password `p` and whose
credential ids were all drawn before the current rng counter and are pairwise
distinct, every one of N successive `addCredential` calls succeeds, and
afterwards the stored vault's credential sequence is the old one extended by
exactly N new credentials; all credential ids in the vault are pairwise
distinct, and every added credential has createdAt = lastModified and a
freshly drawn id (at or beyond the rng counter the sequence started from). -/
theorem C6_addCredential_growth (inputs : List CredentialInput) (id : Nat)
    (p : String) (sys : Sys) (ev : EncryptedVault)
    (hev : getVault id sys.store = some ev)
    (hkey : ev.encryptedData.key = ⟨p, ev.salt⟩)
    (hiv : ev.encryptedData.iv = ev.iv)
    (hids : ∀ c ∈ ev.encryptedData.plain.credentials, c.id < sys.rng)
    (hnodup : (ev.encryptedData.plain.credentials.map Credential.id).Nodup) :
    addCredentialSeqOk id p inputs sys ∧
    ∃ ev' : EncryptedVault, ∃ newCreds : List Credential,
      getVault id (addCredentialSeq id p inputs sys).store = some ev' ∧
      ev'.encryptedData.plain.credentials =
        ev.encryptedData.plain.credentials ++ newCreds ∧
      newCreds.length = inputs.length ∧
      (ev'.encryptedData.plain.credentials.map Credential.id).Nodup ∧
      ∀ c ∈ newCreds, c.createdAt = c.lastModified ∧ sys.rng ≤ c.id := by
  induction inputs generalizing sys ev with
  | nil =>
    exact ⟨trivial, ev, [], hev, (List.append_nil _).symm, rfl, hnodup,
      fun c hc => absurd hc (List.not_mem_nil c)⟩
  | cons c cs ih =>
    obtain ⟨u, newC, hok, hgv, hkey', hiv', hcreds, hncid, hnccr, hnclm,
      hrng, hnow⟩ := addCredential_step id p sys ev c hev hkey hiv
    have hids' : ∀ c' ∈ u.encryptedData.plain.credentials,
        c'.id < (addCredential id p c sys).2.rng := by
      rw [hcreds, hrng]
      intro c' hc'
      rcases List.mem_append.mp hc' with h | h
      · exact Nat.lt_of_lt_of_le (hids c' h) (Nat.le_add_right _ _)
      · rcases List.mem_singleton.mp h with rfl
        rw [hncid]
        omega
    have hnodup' : (u.encryptedData.plain.credentials.map Credential.id).Nodup := by
      rw [hcreds, List.map_append]
      refine List.Nodup.append hnodup (by simp) ?_
      intro a ha
      rcases List.mem_map.mp ha with ⟨c₀, hc₀, rfl⟩
      have hlt : c₀.id < sys.rng := hids c₀ hc₀
      simp only [List.map_cons, List.map_nil, List.mem_singleton, hncid]
      omega
    obtain ⟨hokRest, ev'', newCreds'', hgv'', happ'', hlen'', hnodup'', hprops''⟩ :=
      ih (addCredential id p c sys).2 u hgv hkey' hiv' hids' hnodup'
    refine ⟨⟨?_, hokRest⟩, ev'', newC :: newCreds'', hgv'', ?_, ?_, hnodup'', ?_⟩
    · rw [hok]
      rfl
    · rw [happ'', hcreds, List.append_assoc]
      rfl
    · simp [hlen'']
    · intro c' hc'
      rcases List.mem_cons.mp hc' with rfl | h
      · exact ⟨hnccr.trans hnclm.symm, Nat.le_of_eq hncid.symm⟩
      · obtain ⟨h1, h2⟩ := hprops'' c' h
        refine ⟨h1, ?_⟩
        rw [hrng] at h2
        omega

/-- Witness for C6: two concrete `addCredential` calls on the sample vault
(initially empty) both succeed, growing the credential list by exactly two
entries with distinct fresh ids and createdAt = lastModified. -/
theorem C6_addCredential_growth_witness :
    addCredentialSeqOk 1 "hunter2"
      [⟨"Email", "a@b.com", "x", none, none, none, none⟩,
       ⟨"Bank", "u2", "p2", none, none, none, none⟩] sampleSys ∧
    ∃ ev' : EncryptedVault, ∃ newCreds : List Credential,
      getVault 1 (addCredentialSeq 1 "hunter2"
        [⟨"Email", "a@b.com", "x", none, none, none, none⟩,
         ⟨"Bank", "u2", "p2", none, none, none, none⟩] sampleSys).store = some ev' ∧
      ev'.encryptedData.plain.credentials =
        sampleVault.encryptedData.plain.credentials ++ newCreds ∧
      newCreds.length =
        ([⟨"Email", "a@b.com", "x", none, none, none, none⟩,
          ⟨"Bank", "u2", "p2", none, none, none, none⟩] :
            List CredentialInput).length ∧
      (ev'.encryptedData.plain.credentials.map Credential.id).Nodup ∧
      ∀ c ∈ newCreds, c.createdAt = c.lastModified ∧ sampleSys.rng ≤ c.id :=
  C6_addCredential_growth
    [⟨"Email", "a@b.com", "x", none, none, none, none⟩,
     ⟨"Bank", "u2", "p2", none, none, none, none⟩]
    1 "hunter2" sampleSys sampleVault
    (by decide) (by decide) (by decide) (by decide) (by decide)

end Offpass
